import Mathlib

/-!
Verification of the event-driven gameplay-state coordination layer of a small
2D platformer (Rust, bevy ECS on top of a Godot host).  Each Rust system that
the specification's claims mention is shallowly embedded as an executable Lean
function; machine floats (`f32`) are modelled over `ℚ`, engine-owned state
(node validity, asset readiness, the scene tree feed) as explicit parameters
or oracles.  Theorems about the embedded functions settle the claims.
-/

namespace Platformer

/-- Level identifier, from `level_manager.rs` (`enum LevelId`). -/
inductive LevelId
  | Level1
  | Level2
  | Level3
deriving DecidableEq, Repr, BEq

/-- Embeds `LevelId::scene_path` from `level_manager.rs`. -/
def LevelId.scene_path : LevelId → String
  | .Level1 => "scenes/levels/level_1.tscn"
  | .Level2 => "scenes/levels/level_2.tscn"
  | .Level3 => "scenes/levels/level_3.tscn"

/-- Embeds `LevelId::display_name` from `level_manager.rs`. -/
def LevelId.display_name : LevelId → String
  | .Level1 => "Level 1"
  | .Level2 => "Level 2"
  | .Level3 => "Level 3"

/-- Modelled from the spec: the `GameState` enum (`Loading | MainMenu | InGame`)
is referenced as `crate::GameState` by `gameplay/mod.rs` and `main_menu.rs`
but its defining module is not among the provided sources; the variant list
is taken from spec section 3. -/
inductive GameState
  | Loading
  | MainMenu
  | InGame
deriving DecidableEq, Repr

/-- Embeds `SceneOperationEvent` from `scene_management.rs`.  The
`ChangeToPacked` payload is a `Handle<GodotResource>`; a handle is identified
here by the level whose `scene_path` was passed to `AssetServer::load`. -/
inductive SceneOp
  | reloadCurrent
  | changeToFile (path : String)
  | changeToPacked (scene : LevelId)
deriving DecidableEq, Repr

/-- Embeds `SceneTreeEventType` from godot-bevy's scene-tree feed (only the
constructors the embedded code inspects are distinguished). -/
inductive SceneTreeEventType
  | NodeAdded
  | NodeRemoved
deriving DecidableEq, Repr, BEq

/-- A scene-tree event: event type plus the added/removed node's path
(the embedded system only reads `event.node.get_path()`). -/
structure SceneTreeEvent where
  event_type : SceneTreeEventType
  path : String
deriving DecidableEq, Repr

/-- The level manager's three resources, from `level_manager.rs`:
`CurrentLevel.level_id`, `LevelLoadingState.loading_handle` (the in-flight
`Handle<GodotResource>`, identified by the level whose scene path was
loaded), and `PendingLevel.level_id`. -/
structure LMState where
  current : Option LevelId
  loading : Option LevelId
  pending : Option LevelId
deriving DecidableEq, Repr

/-- Embeds `handle_level_load_requests` from `level_manager.rs`: for each
`LoadLevelEvent` read this tick, load the asset (record the handle in
`loading_state.loading_handle`) and set `CurrentLevel` optimistically. -/
def handle_level_load_requests (loads : List LevelId) (s : LMState) : LMState :=
  loads.foldl (fun st id => { st with loading := some id, current := some id }) s

/-- Embeds `handle_level_scene_change` from `level_manager.rs`: when a current level
and an in-flight handle exist and the asset is loaded (`assets.get_mut`
succeeds, modelled by the `ready` oracle), request a packed scene change,
set `PendingLevel`, and clear the loading handle.  Returns the scene
operations written this tick. -/
def handle_level_scene_change (ready : LevelId → Bool) (s : LMState) :
    LMState × List SceneOp :=
  match s.current, s.loading with
  | some level_id, some handle =>
    if ready handle then
      ({ s with pending := some level_id, loading := none },
       [SceneOp.changeToPacked handle])
    else (s, [])
  | _, _ => (s, [])

/-- The expected root path matched in `emit_level_loaded_event_when_scene_ready`. -/
def expectedRootPath : LevelId → String
  | .Level1 => "/root/Level1"
  | .Level2 => "/root/Level2"
  | .Level3 => "/root/Level3"

/-- The `for`/`break` loop body of `emit_level_loaded_event_when_scene_ready`:
scan this tick's scene-tree events for the first `NodeAdded` whose node path
equals the expected path. -/
def sceneReadyConfirmed (expected : String) : List SceneTreeEvent → Bool
  | [] => false
  | e :: rest =>
    if e.event_type = SceneTreeEventType.NodeAdded ∧ e.path = expected then true
    else sceneReadyConfirmed expected rest

/-- Embeds `emit_level_loaded_event_when_scene_ready` from `level_manager.rs`:  if a
pending level exists and this tick's scene-tree feed reports a `NodeAdded`
matching its expected root path, emit one `LevelLoadedEvent` (the loop breaks
after the first match) and clear `PendingLevel`. -/
def emit_level_loaded (treeEvents : List SceneTreeEvent) (s : LMState) :
    LMState × List LevelId :=
  match s.pending with
  | none => (s, [])
  | some level_id =>
    if sceneReadyConfirmed (expectedRootPath level_id) treeEvents then
      ({ s with pending := none }, [level_id])
    else (s, [])

/-- Engine inputs consumed by the level manager during one `Update` tick:
the `LoadLevelEvent`s read, the asset-readiness oracle for in-flight
handles, and the scene-tree event feed. -/
structure LMTickIn where
  loads : List LevelId
  ready : LevelId → Bool
  tree : List SceneTreeEvent

/-- Outputs of one level-manager tick. -/
structure LMTickOut where
  state : LMState
  ops : List SceneOp
  loaded : List LevelId

/-- One `Update` tick of the level manager: the three systems in the order
they are registered in `LevelManagerPlugin::build` (load requests, scene
change, loaded-event emission). -/
def lmTick (s : LMState) (t : LMTickIn) : LMTickOut :=
  let s1 := handle_level_load_requests t.loads s
  let (s2, ops) := handle_level_scene_change t.ready s1
  let (s3, loaded) := emit_level_loaded t.tree s2
  ⟨s3, ops, loaded⟩

/-- Run the level manager over a sequence of ticks, accumulating the
`LevelLoadedEvent`s it emits. -/
def lmRun (s : LMState) : List LMTickIn → LMState × List LevelId
  | [] => (s, [])
  | t :: ts =>
    ((lmRun (lmTick s t).state ts).1,
     (lmTick s t).loaded ++ (lmRun (lmTick s t).state ts).2)

/-- Initial level-manager state (`Default` impls: all `None`). -/
def lmInit : LMState := ⟨none, none, none⟩

/-! ## Player controller (`gameplay/player.rs`) -/

/-- A 2D velocity vector; `f32` components are modelled over `ℚ`. -/
structure Vec2 where
  x : ℚ
  y : ℚ
deriving DecidableEq, Repr

/-- Embeds `PlayerInputEvent` from `gameplay/player.rs`. -/
structure PlayerInputEvent where
  movement_direction : ℚ
  jump_pressed : Bool
  is_on_floor : Bool
deriving DecidableEq, Repr

/-- The `Speed`, `JumpVelocity` and `Gravity` components attached to the
player entity (`components.rs`). -/
structure PlayerParams where
  speed : ℚ
  jump_velocity : ℚ
  gravity : ℚ
deriving DecidableEq, Repr

/-- Embeds `SIGN` as used by Godot's `move_toward`. -/
def qsign (x : ℚ) : ℚ :=
  if 0 < x then 1 else if x < 0 then -1 else 0

/-- Godot's `move_toward(from, to, delta)`:
`abs(to - from) <= delta ? to : from + SIGN(to - from) * delta`. -/
def moveToward (a b delta : ℚ) : ℚ :=
  if |b - a| ≤ delta then b else a + qsign (b - a) * delta

/-- The per-event loop body of `apply_player_movement`: jump handling
followed by horizontal movement, threading
`(velocity, movement_occurred, last_movement_direction, jump sfx count)`. -/
def processInputEvents (speed jumpV : ℚ) :
    List PlayerInputEvent → Vec2 × Bool × ℚ × Nat → Vec2 × Bool × ℚ × Nat
  | [], acc => acc
  | e :: rest, (v, moved, _, sfx) =>
    let (v1, sfx1) :=
      if e.jump_pressed && e.is_on_floor then ({ v with y := jumpV }, sfx + 1)
      else (v, sfx)
    let (v2, moved2) :=
      if e.movement_direction ≠ 0 then
        ({ v1 with x := e.movement_direction * speed }, true)
      else
        ({ v1 with x := moveToward v1.x 0 (speed / 2) }, moved)
    processInputEvents speed jumpV rest (v2, moved2, e.movement_direction, sfx1)

/-- Result of one run of `apply_player_movement`: the velocity written back to
the physics body before `move_and_slide`, the emitted `PlayerMovementEvent`
fields derived in this system (`is_moving`, `facing_left`; the event's
`is_on_floor` is re-read from the body after `move_and_slide`, an engine-side
step outside this embedding), and the number of jump SFX requests. -/
structure MoveResult where
  velocity : Vec2
  is_moving : Bool
  facing_left : Bool
  jumpSfx : Nat
deriving DecidableEq, Repr

/-- Embeds `apply_player_movement` from `gameplay/player.rs`.  `bodyOnFloor` is the
physics body's `is_on_floor()` at integration time; `events` are this tick's
`PlayerInputEvent`s.  Gravity accumulates unconditionally when the body is
airborne; the input loop handles jump and horizontal movement; if no input
event was processed, deceleration is applied as a fallback. -/
def apply_player_movement (p : PlayerParams) (dt : ℚ) (bodyOnFloor : Bool)
    (v : Vec2) (events : List PlayerInputEvent) : MoveResult :=
  let v0 := if !bodyOnFloor then { v with y := v.y + p.gravity * dt } else v
  let (v1, moved, lastDir, sfx) :=
    processInputEvents p.speed p.jump_velocity events (v0, false, 0, 0)
  let v2 :=
    if events.isEmpty then { v1 with x := moveToward v1.x 0 (p.speed / 2) }
    else v1
  ⟨v2, moved, lastDir < 0, sfx⟩

/-- Modelled from the spec: deceleration "toward 0 at speed/2 units/sec"
would move `x` toward 0 by at most `(speed / 2) * dt` in a tick lasting
`dt` seconds.  Stated for comparison with `apply_player_movement`, which
passes `speed / 2` to `move_toward` without multiplying by the physics
delta. -/
def decelPerSecond (x speed dt : ℚ) : ℚ :=
  moveToward x 0 (speed / 2 * dt)

/-! ## Gem subsystem (`gameplay/gem.rs`)

`detect_gem_player_collision` calls `Area2D::queue_free` on a collected gem.
In Godot, `queue_free` only marks the node for deletion at the end of the
current frame; the instance stays valid (so `GodotNodeHandle::try_get`
still succeeds) until then.  The node state therefore carries both flags. -/

/-- Engine-side state of a gem's `Area2D` node: `alive` is whether
`try_get::<Area2D>()` currently succeeds; `pendingFree` records a
`queue_free` call, honoured by the engine at end of frame. -/
structure GemNode where
  alive : Bool
  pendingFree : Bool
deriving DecidableEq, Repr

/-- A gem entity as seen by `detect_gem_player_collision`'s query: its entity
id, its node handle's state, and this tick's recent collision records
(colliding entity ids). -/
structure GemEntity where
  id : Nat
  node : GemNode
  collisions : List Nat
deriving DecidableEq, Repr

/-- The inner loop of `detect_gem_player_collision` for one gem: for each
collision record that is a `Player` entity (the `players.get(..).is_ok()`
check, modelled by the `isPlayer` oracle), if `try_get::<Area2D>()` succeeds
then `queue_free` the node and emit a `GemCollectedEvent`
`(player_entity, gem_entity)`.  `queue_free` sets `pendingFree` but leaves
the node valid for the rest of the tick. -/
def detectGemLoop (isPlayer : Nat → Bool) (node : GemNode) (gemId : Nat) :
    List Nat → GemNode × List (Nat × Nat)
  | [] => (node, [])
  | p :: rest =>
    if isPlayer p then
      if node.alive then
        let node' : GemNode := { node with pendingFree := true }
        let (n2, evs) := detectGemLoop isPlayer node' gemId rest
        (n2, (p, gemId) :: evs)
      else detectGemLoop isPlayer node gemId rest
    else detectGemLoop isPlayer node gemId rest

/-- Embeds `detect_gem_player_collision` from `gameplay/gem.rs`, over all gem
entities; returns the updated node states and the emitted
`GemCollectedEvent`s. -/
def detect_gem_player_collision (isPlayer : Nat → Bool) (gems : List GemEntity) :
    List GemEntity × List (Nat × Nat) :=
  gems.foldl
    (fun (acc : List GemEntity × List (Nat × Nat)) g =>
      let (node', evs) := detectGemLoop isPlayer g.node g.id g.collisions
      (acc.1 ++ [{ g with node := node' }], acc.2 ++ evs))
    ([], [])

/-- Embeds `handle_gem_collected_events` from `gameplay/gem.rs`: increment
`GemsCollected` by 1 and request one SFX per event read.  Returns the new
counter and the number of SFX requests. -/
def handle_gem_collected_events (events : List (Nat × Nat))
    (gems_collected : ℤ) : ℤ × Nat :=
  (gems_collected + events.length, events.length)

/-- End-of-frame processing by the engine: nodes queued with `queue_free`
are actually deleted, after which `try_get` fails. -/
def end_of_frame_free (n : GemNode) : GemNode :=
  ⟨n.alive && !n.pendingFree, false⟩

/-- Mutations of the `GemsCollected` counter across a run: a gem tick
increments it via `handle_gem_collected_events`; the reset and
return-to-menu handlers set it to 0. -/
inductive CounterOp
  | collect (events : List (Nat × Nat))
  | reset

/-- Fold the counter mutations over a run. -/
def runCounter (g : ℤ) : List CounterOp → ℤ
  | [] => g
  | .collect evs :: ops => runCounter (handle_gem_collected_events evs g).1 ops
  | .reset :: ops => runCounter 0 ops

/-! ## HUD coordinator (`gameplay/hud.rs`) -/

/-- Embeds `HudHandles` from `gameplay/hud.rs`: two optional cached
`GodotNodeHandle`s (the handles are opaque; only their presence matters). -/
structure HudHandles where
  current_level_label : Option Unit
  gems_label : Option Unit
deriving DecidableEq, Repr

/-- Embeds `HudHandles::clear`. -/
def HudHandles.clear (_h : HudHandles) : HudHandles := ⟨none, none⟩

/-- HUD-visible state: the cached handles plus the text of the two labels in
the scene (the engine-side nodes the handles point at). -/
structure HudState where
  handles : HudHandles
  levelText : String
  gemsText : String
deriving DecidableEq, Repr

/-- Embeds `setup_hud_on_level_loaded` from `gameplay/hud.rs`: for each
`LevelLoadedEvent` read this tick, re-cache both label handles from the
scene root (`HudUi::from_node`, assumed to find the nodes), set the level
label text to the level's display name, and emit a
`HudUpdateEvent::GemsChanged` carrying the current counter value.  Returns
the updated state and the emitted update payloads. -/
def setup_hud_on_level_loaded (loaded : List LevelId) (gemsCollected : ℤ)
    (s : HudState) : HudState × List ℤ :=
  match loaded with
  | [] => (s, [])
  | id :: rest =>
    let s' : HudState :=
      { s with handles := ⟨some (), some ()⟩, levelText := id.display_name }
    ((setup_hud_on_level_loaded rest gemsCollected s').1,
     gemsCollected :: (setup_hud_on_level_loaded rest gemsCollected s').2)

/-- Embeds `generate_hud_update_events` from `gameplay/hud.rs`: one
`HudUpdateEvent::GemsChanged(gems_collected)` per `GemCollectedEvent` read. -/
def generate_hud_update_events (gemEvents : Nat) (gemsCollected : ℤ) : List ℤ :=
  List.replicate gemEvents gemsCollected

/-- Embeds `handle_hud_update_events` from `gameplay/hud.rs`: for each
`GemsChanged(n)` event, if the gems-label handle is cached set the label's
text to `"Gems: {n}"`; otherwise silently skip. -/
def handle_hud_update_events (updates : List ℤ) (s : HudState) : HudState :=
  updates.foldl
    (fun st n =>
      match st.handles.gems_label with
      | some _ => { st with gemsText := "Gems: " ++ toString n }
      | none => st)
    s

/-- Inputs to one HUD tick.  `HudPlugin::build` registers
`setup_hud_on_level_loaded`, `generate_hud_update_events` and
`handle_hud_update_events` with no `.chain()` and no set configuration, so
within a tick each producer may legally run before or after the handler;
the three `..BeforeHandler` bits record the schedule the engine chose for
this tick.  Bevy events are double-buffered: an event written after its
reader ran is read at the reader's next run, one tick later. -/
structure HudSchedTick where
  loaded : List LevelId
  gemsCollected : ℤ
  gemEvents : Nat
  external : List ℤ
  externalBeforeHandler : Bool
  setupBeforeHandler : Bool
  genBeforeHandler : Bool
deriving DecidableEq, Repr

/-- HUD-module world state across ticks: the visible HUD state plus the
`GemsChanged` events already written but not yet read by
`handle_hud_update_events` (written after it ran last tick). -/
structure HudWorld where
  hud : HudState
  pending : List ℤ
deriving DecidableEq, Repr

/-- All `GemsChanged` payloads emitted during one HUD tick, in the model's
fixed producer enumeration order (external producers, the setup system's
re-emissions, the per-gem-event updates). -/
def hudEmitted (t : HudSchedTick) : List ℤ :=
  t.external ++ List.replicate t.loaded.length t.gemsCollected
    ++ generate_hud_update_events t.gemEvents t.gemsCollected

/-- The `GemsChanged` payloads `handle_hud_update_events` reads this tick:
the carried-over events from last tick, then this tick's events from each
producer the schedule ran before the handler. -/
def hudDelivered (pending : List ℤ) (t : HudSchedTick) : List ℤ :=
  pending
    ++ (if t.externalBeforeHandler then t.external else [])
    ++ (if t.setupBeforeHandler then
          List.replicate t.loaded.length t.gemsCollected
        else [])
    ++ (if t.genBeforeHandler then
          generate_hud_update_events t.gemEvents t.gemsCollected
        else [])

/-- The `GemsChanged` payloads written after the handler ran this tick;
they stay buffered and are read first at the handler's next run. -/
def hudCarry (t : HudSchedTick) : List ℤ :=
  (if t.externalBeforeHandler then [] else t.external)
    ++ (if t.setupBeforeHandler then []
        else List.replicate t.loaded.length t.gemsCollected)
    ++ (if t.genBeforeHandler then []
        else generate_hud_update_events t.gemEvents t.gemsCollected)

/-- One HUD tick under the schedule recorded in `t`: the handler sees the
setup system's handle-cache write only if setup ran first; by end of tick
the setup system's handle/level-label writes land regardless (the two
systems touch disjoint fields), and the unread events are carried over. -/
def hudSchedTick (w : HudWorld) (t : HudSchedTick) : HudWorld :=
  let afterSetup := (setup_hud_on_level_loaded t.loaded t.gemsCollected w.hud).1
  let handlerView := if t.setupBeforeHandler then afterSetup else w.hud
  let afterHandler := handle_hud_update_events (hudDelivered w.pending t) handlerView
  { hud :=
      { handles := afterSetup.handles,
        levelText := afterSetup.levelText,
        gemsText := afterHandler.gemsText },
    pending := hudCarry t }

/-- Run the HUD over a sequence of schedule-annotated ticks. -/
def hudSchedRun (w : HudWorld) : List HudSchedTick → HudWorld
  | [] => w
  | t :: ts => hudSchedRun (hudSchedTick w t) ts

/-- The payload of the most recent `GemsChanged` event in a list, if any. -/
def lastGemsChanged : List ℤ → Option ℤ
  | [] => none
  | n :: rest => some ((lastGemsChanged rest).getD n)

/-- The value of the most recent `GemsChanged` event the handler has read
over a sequence of ticks, starting from value `v` with `pending` unread
events. -/
def latestDelivered (v : ℤ) (pending : List ℤ) : List HudSchedTick → ℤ
  | [] => v
  | t :: ts =>
    latestDelivered ((lastGemsChanged (hudDelivered pending t)).getD v)
      (hudCarry t) ts

/-! ## Gameplay orchestrator (`gameplay/mod.rs`) -/

/-- Outputs and mutated resources of `handle_reset_level_events`.  The Rust
system has event writers only for `HudUpdateEvent`, `SceneOperationEvent`
and `LevelLoadedEvent` — in particular no `LoadLevelEvent` writer — so
`loadRequests` is present to record that no asset-load request can be
issued. -/
structure ResetOut where
  gems : ℤ
  hud : HudHandles
  hudUpdates : List ℤ
  sceneOps : List SceneOp
  loadedEvents : List LevelId
  loadRequests : List LevelId
deriving DecidableEq, Repr

/-- Embeds `handle_reset_level_events` from `gameplay/mod.rs`: for each
`ResetLevelEvent` read, zero `GemsCollected`, clear `HudHandles`, emit
`HudUpdateEvent::GemsChanged(0)`, request `SceneOperationEvent::reload()`,
and — if `CurrentLevel` is set — re-emit a `LevelLoadedEvent` for it. -/
def handle_reset_level_events (events : List Unit) (gems : ℤ)
    (hud : HudHandles) (current : Option LevelId) : ResetOut :=
  events.foldl
    (fun o _ =>
      { o with
          gems := 0,
          hud := o.hud.clear,
          hudUpdates := o.hudUpdates ++ [0],
          sceneOps := o.sceneOps ++ [SceneOp.reloadCurrent],
          loadedEvents := o.loadedEvents ++
            (match current with
             | some level_id => [level_id]
             | none => []) })
    ⟨gems, hud, [], [], [], []⟩

/-- Outputs and mutated resources of `handle_return_to_menu_events`. -/
structure MenuReturnOut where
  gems : ℤ
  hud : HudHandles
  current : Option LevelId
  nextState : Option GameState
  sceneOps : List SceneOp
deriving DecidableEq, Repr

/-- Embeds `handle_return_to_menu_events` from `gameplay/mod.rs`: for each
`ReturnToMainMenuEvent` read, zero `GemsCollected`, clear `HudHandles`,
clear `CurrentLevel`, set the next game state to `MainMenu`, and request a
scene change to the main-menu file path. -/
def handle_return_to_menu_events (events : List Unit) (gems : ℤ)
    (hud : HudHandles) (current : Option LevelId) : MenuReturnOut :=
  events.foldl
    (fun o _ =>
      { o with
          gems := 0,
          hud := o.hud.clear,
          current := none,
          nextState := some GameState.MainMenu,
          sceneOps := o.sceneOps ++
            [SceneOp.changeToFile "res://scenes/levels/main_menu.tscn"] })
    ⟨gems, hud, current, none, []⟩

/-- World state shared between the gameplay orchestrator and the level
manager: the resources either side reads or writes. -/
structure World where
  gems : ℤ
  hud : HudHandles
  current : Option LevelId
  nextState : Option GameState
  pending : Option LevelId
  loading : Option LevelId
deriving DecidableEq, Repr

/-- Embeds `handle_return_to_menu_events` acting on the shared world.  The Rust
system's parameters are exactly `GemsCollected`, `HudHandles`,
`CurrentLevel`, `NextState<GameState>` and the scene-operation writer;
`PendingLevel` and `LevelLoadingState` are not among them, so those fields
pass through untouched. -/
def worldReturnToMenu (events : List Unit) (w : World) : World × List SceneOp :=
  let o := handle_return_to_menu_events events w.gems w.hud w.current
  ({ w with
      gems := o.gems,
      hud := o.hud,
      current := o.current,
      nextState :=
        match o.nextState with
        | some st => some st
        | none => w.nextState },
   o.sceneOps)

/-- One combined tick of `handle_reset_level_events` followed by the level
manager's `emit_level_loaded_event_when_scene_ready`, collecting every
`LevelLoadedEvent` emitted in the tick. -/
def worldResetTick (w : World) (resetEvents : List Unit)
    (treeEvents : List SceneTreeEvent) : World × List LevelId :=
  let o := handle_reset_level_events resetEvents w.gems w.hud w.current
  let (lm, fromManager) :=
    emit_level_loaded treeEvents ⟨w.current, w.loading, w.pending⟩
  ({ w with gems := o.gems, hud := o.hud, pending := lm.pending },
   o.loadedEvents ++ fromManager)

/-! ## Main menu (`main_menu.rs`) -/

/-- Embeds `GodotSignal` as read by `listen_for_button_press`: target node instance
id and signal name. -/
structure GodotSignal where
  target : Nat
  name : String
deriving DecidableEq, Repr

/-- Embeds `MenuAssets` from `main_menu.rs`; button handles are node instance ids. -/
structure MenuAssets where
  start_button : Option Nat
  fullscreen_button : Option Nat
  quit_button : Option Nat
  initialized : Bool
  signals_connected : Bool
deriving DecidableEq, Repr

/-- Embeds `WindowMode` as inspected by the fullscreen branch (`other` stands for
every mode that is neither `FULLSCREEN` nor `WINDOWED`, which the code
leaves unchanged). -/
inductive WindowMode
  | windowed
  | fullscreen
  | other
deriving DecidableEq, Repr

/-- Accumulated effects of `listen_for_button_press`. -/
structure MenuListenOut where
  nextState : Option GameState
  loadRequests : List LevelId
  window : WindowMode
  quitRequested : Bool
deriving DecidableEq, Repr

/-- Embeds `listen_for_button_press` from `main_menu.rs`: for each received signal,
skip it when its target node has been freed (`try_get::<Node>()` fails,
modelled by the `validNode` oracle); otherwise, for a `"pressed"` signal,
dispatch by button identity — Start sets the next game state to `InGame`
and emits `LoadLevelEvent(Level1)`; Fullscreen toggles the window between
fullscreen and windowed; Quit requests application exit when the target
casts to a `Button` owning a tree (the `buttonWithTree` oracle). -/
def listen_for_button_press (assets : MenuAssets) (validNode : Nat → Bool)
    (buttonWithTree : Nat → Bool) (window : WindowMode)
    (events : List GodotSignal) : MenuListenOut :=
  events.foldl
    (fun o evt =>
      if !validNode evt.target then o
      else if evt.name = "pressed" then
        if assets.start_button = some evt.target then
          { o with
              nextState := some GameState.InGame,
              loadRequests := o.loadRequests ++ [LevelId.Level1] }
        else if assets.fullscreen_button = some evt.target then
          { o with
              window :=
                match o.window with
                | .fullscreen => .windowed
                | .windowed => .fullscreen
                | .other => .other }
        else if assets.quit_button = some evt.target then
          { o with quitRequested := o.quitRequested || buttonWithTree evt.target }
        else o
      else o)
    ⟨none, [], window, false⟩

/-! ## Scenario traces -/

/-- The C3 scenario as a family of level-manager input traces, parametric in
the waiting times: `LoadLevelEvent(Level2)`; `a` ticks with nothing ready;
`LoadLevelEvent(Level3)` (before the first asset resolves); `b` ticks in
which the superseded Level2 asset is the one that is ready (its completion
must be ignored); one tick in which the Level3 asset is ready; `c` ticks in
which an unrelated `/root/Level2` node-added event arrives; one tick whose
scene-tree feed adds `/root/Level3`; `d` further such ticks (which must emit
nothing more). -/
def c3Trace (a b c d : Nat) : List LMTickIn :=
  ⟨[LevelId.Level2], fun _ => false, []⟩ ::
    (List.replicate a ⟨[], fun _ => false, []⟩ ++
      (⟨[LevelId.Level3], fun _ => false, []⟩ ::
        (List.replicate b ⟨[], fun id => id == LevelId.Level2, []⟩ ++
          (⟨[], fun id => id == LevelId.Level3, []⟩ ::
            (List.replicate c
                ⟨[], fun _ => false,
                 [⟨SceneTreeEventType.NodeAdded, "/root/Level2"⟩]⟩ ++
              (⟨[], fun _ => false,
                 [⟨SceneTreeEventType.NodeAdded, "/root/Level3"⟩]⟩ ::
                List.replicate d
                  ⟨[], fun _ => false,
                   [⟨SceneTreeEventType.NodeAdded, "/root/Level3"⟩]⟩))))))

/-! ## Helper lemmas -/

lemma qsign_neg (x : ℚ) : qsign (-x) = -qsign x := by
  rcases lt_trichotomy x 0 with h | h | h <;>
    simp [qsign, h, h.not_lt, neg_pos, neg_neg_iff_pos]

lemma moveToward_zero (x d : ℚ) : moveToward x 0 d = if |x| ≤ d then 0 else x - qsign x * d := by
  simp [moveToward, qsign_neg, abs_neg, sub_eq_add_neg, neg_mul]

lemma abs_moveToward_zero_le (x d : ℚ) (hd : 0 ≤ d) : |moveToward x 0 d| ≤ |x| := by
  rw [moveToward_zero]
  split
  · simp only [abs_zero]
    exact abs_nonneg x
  · rename_i h
    push_neg at h
    rcases lt_trichotomy x 0 with hx | hx | hx
    · rw [abs_of_neg hx] at h ⊢
      rw [qsign, if_neg (not_lt.mpr hx.le), if_pos hx]
      rw [abs_of_neg (by linarith)]
      linarith
    · subst hx; simp at h; linarith
    · rw [abs_of_pos hx] at h ⊢
      rw [qsign, if_pos hx]
      rw [abs_of_pos (by linarith)]
      linarith

lemma abs_moveToward_zero_lt (x d : ℚ) (hd : 0 < d) (hx : x ≠ 0) :
    |moveToward x 0 d| < |x| := by
  rw [moveToward_zero]
  split
  · simp only [abs_zero]
    exact abs_pos.mpr hx
  · rename_i h
    push_neg at h
    rcases lt_trichotomy x 0 with hlt | heq | hgt
    · rw [abs_of_neg hlt] at h ⊢
      rw [qsign, if_neg (not_lt.mpr hlt.le), if_pos hlt]
      rw [abs_of_neg (by linarith)]
      linarith
    · exact absurd heq hx
    · rw [abs_of_pos hgt] at h ⊢
      rw [qsign, if_pos hgt]
      rw [abs_of_pos (by linarith)]
      linarith

lemma moveToward_zero_mul_nonneg (x d : ℚ) (hd : 0 ≤ d) :
    0 ≤ moveToward x 0 d * x := by
  rw [moveToward_zero]
  split
  · simp
  · rename_i h
    push_neg at h
    rcases lt_trichotomy x 0 with hlt | heq | hgt
    · rw [abs_of_neg hlt] at h
      rw [qsign, if_neg (not_lt.mpr hlt.le), if_pos hlt]
      nlinarith
    · subst heq; simp
    · rw [abs_of_pos hgt] at h
      rw [qsign, if_pos hgt]
      nlinarith

lemma apply_player_movement_single_zero_dir_x (p : PlayerParams) (dt : ℚ)
    (bodyOnFloor : Bool) (v : Vec2) (jp fl : Bool) :
    (apply_player_movement p dt bodyOnFloor v
        [⟨0, jp, fl⟩]).velocity.x = moveToward v.x 0 (p.speed / 2) := by
  cases bodyOnFloor <;> cases hjf : jp && fl <;>
    simp [apply_player_movement, processInputEvents, hjf]

lemma apply_player_movement_no_events_x (p : PlayerParams) (dt : ℚ)
    (bodyOnFloor : Bool) (v : Vec2) :
    (apply_player_movement p dt bodyOnFloor v []).velocity.x =
      moveToward v.x 0 (p.speed / 2) := by
  cases bodyOnFloor <;> simp [apply_player_movement, processInputEvents]

/-! ## Claim theorems -/

/-- C4 (counterexample): the claim says the movement-integration stage moves
horizontal velocity toward 0 "at speed/2 units/sec".  The code passes
`speed / 2` to `move_toward` without scaling by the physics delta: with
`speed = 100`, `dt = 1/60` and horizontal velocity `50`, one tick with a
zero-direction input event sets the horizontal velocity to `0`, while
decelerating at `speed/2` units per second for `1/60` s would give
`50 - 5/6`. -/
theorem decel_rate_counterexample :
    (apply_player_movement ⟨100, -400, 980⟩ (1 / 60) true ⟨50, 0⟩
        [⟨0, false, true⟩]).velocity.x = 0 ∧
    decelPerSecond 50 100 (1 / 60) = 50 - 5 / 6 ∧
    (0 : ℚ) ≠ 50 - 5 / 6 := by
  refine ⟨?_, ?_, by norm_num⟩
  · rw [apply_player_movement_single_zero_dir_x]
    rw [moveToward_zero]
    norm_num
  · rw [decelPerSecond, moveToward_zero]
    rw [qsign]
    norm_num

/-- C4 (amended): in a tick whose input event has movement direction 0 — and
in the fallback tick with no input event — `apply_player_movement` moves the
horizontal velocity toward 0 by `speed / 2` units per physics tick (not per
second): the new horizontal velocity is `move_toward(x, 0, speed/2)`, its
magnitude never increases, strictly decreases while nonzero (for positive
speed), and its sign never flips past 0. -/
theorem decel_per_tick (p : PlayerParams) (dt : ℚ) (bodyOnFloor : Bool)
    (v : Vec2) (jp fl : Bool) (hs : 0 < p.speed) :
    ((apply_player_movement p dt bodyOnFloor v [⟨0, jp, fl⟩]).velocity.x =
        moveToward v.x 0 (p.speed / 2) ∧
      (apply_player_movement p dt bodyOnFloor v []).velocity.x =
        moveToward v.x 0 (p.speed / 2)) ∧
    |(apply_player_movement p dt bodyOnFloor v [⟨0, jp, fl⟩]).velocity.x| ≤ |v.x| ∧
    (v.x ≠ 0 →
      |(apply_player_movement p dt bodyOnFloor v [⟨0, jp, fl⟩]).velocity.x| < |v.x|) ∧
    0 ≤ (apply_player_movement p dt bodyOnFloor v [⟨0, jp, fl⟩]).velocity.x * v.x := by
  have hx := apply_player_movement_single_zero_dir_x p dt bodyOnFloor v jp fl
  have hd : (0 : ℚ) ≤ p.speed / 2 := by linarith
  refine ⟨⟨hx, apply_player_movement_no_events_x p dt bodyOnFloor v⟩, ?_, ?_, ?_⟩
  · rw [hx]; exact abs_moveToward_zero_le v.x _ hd
  · intro hvx
    rw [hx]
    exact abs_moveToward_zero_lt v.x _ (by linarith) hvx
  · rw [hx]; exact moveToward_zero_mul_nonneg v.x _ hd

/-- Witness for `decel_per_tick` at speed 100, horizontal velocity 50. -/
theorem decel_per_tick_witness :
    (0 : ℚ) < 100 ∧ (50 : ℚ) ≠ 0 ∧
    |(apply_player_movement ⟨100, -400, 980⟩ 1 true ⟨50, 0⟩
        [⟨0, false, true⟩]).velocity.x| < |(50 : ℚ)| := by
  refine ⟨by norm_num, by norm_num, ?_⟩
  exact (decel_per_tick ⟨100, -400, 980⟩ 1 true ⟨50, 0⟩ false true
    (by norm_num)).2.2.1 (by norm_num)

/-- C5: within one movement-integration tick processing a single input event
(whose floor flag agrees with the physics body's floor contact, as both are
read from the same body within the chained input→movement stages), the
vertical velocity is set to the configured jump velocity exactly when
`jump_pressed` and `is_on_floor` are both true in that event; otherwise —
in particular for any event with `is_on_floor = false` — it changes only by
the gravity accumulation for the tick (`gravity * dt` when airborne, `0` on
the floor). -/
theorem jump_requires_floor_contact (p : PlayerParams) (dt : ℚ)
    (bodyOnFloor : Bool) (v : Vec2) (e : PlayerInputEvent)
    (h : e.is_on_floor = bodyOnFloor) :
    (apply_player_movement p dt bodyOnFloor v [e]).velocity.y =
      if e.jump_pressed && e.is_on_floor then p.jump_velocity
      else v.y + (if e.is_on_floor then 0 else p.gravity * dt) := by
  subst h
  rcases e with ⟨d, jp, fl⟩
  cases jp <;> cases fl <;>
    by_cases hd : d = (0 : ℚ) <;>
      simp [apply_player_movement, processInputEvents, hd]

/-- Witness for `jump_requires_floor_contact`: jump pressed while airborne
leaves vertical velocity changed only by gravity. -/
theorem jump_requires_floor_contact_witness :
    (apply_player_movement ⟨100, -400, 980⟩ 1 false ⟨0, 0⟩
        [⟨0, true, false⟩]).velocity.y = 980 := by
  have h := jump_requires_floor_contact ⟨100, -400, 980⟩ 1 false ⟨0, 0⟩
    ⟨0, true, false⟩ rfl
  rw [h]
  norm_num

/-- C6: processing one reset event while `GemsCollected = 5` and
`CurrentLevel = Some(Level2)` zeroes the counter, clears the HUD handle
cache, emits one `GemsChanged(0)` HUD update, requests exactly one
reload-current scene operation, and re-emits a level-loaded event for
Level2; the system has no `LoadLevelEvent` writer, so no asset-load request
is issued. -/
theorem reset_level_scenario (hud : HudHandles) :
    handle_reset_level_events [()] 5 hud (some LevelId.Level2) =
      ⟨0, ⟨none, none⟩, [0], [SceneOp.reloadCurrent], [LevelId.Level2], []⟩ :=
  rfl

/-- C7: processing one return-to-menu event, from any prior counter, HUD
cache and current level, zeroes the counter, clears the HUD handles, clears
`CurrentLevel`, sets the next game state to `MainMenu`, and requests exactly
one scene change to the main-menu file path. -/
theorem return_to_menu_scenario (gems : ℤ) (hud : HudHandles)
    (current : Option LevelId) :
    handle_return_to_menu_events [()] gems hud current =
      ⟨0, ⟨none, none⟩, none, some GameState.MainMenu,
       [SceneOp.changeToFile "res://scenes/levels/main_menu.tscn"]⟩ :=
  rfl

/-- C8: with the menu listener active (`MenuAssets` initialized, signals
connected), a press signal whose target is the Start button and whose node
still exists sets the next game state to `InGame` and emits exactly one
`LoadLevelEvent(Level1)`; a press signal whose target node has been freed is
ignored entirely — no state change, no load request, no window or quit
effect. -/
theorem menu_press_dispatch (assets : MenuAssets)
    (validNode buttonWithTree : Nat → Bool) (window : WindowMode)
    (e : GodotSignal) (_hinit : assets.initialized = true)
    (_hconn : assets.signals_connected = true) :
    (assets.start_button = some e.target → validNode e.target = true →
      e.name = "pressed" →
      listen_for_button_press assets validNode buttonWithTree window [e] =
        ⟨some GameState.InGame, [LevelId.Level1], window, false⟩) ∧
    (validNode e.target = false →
      listen_for_button_press assets validNode buttonWithTree window [e] =
        ⟨none, [], window, false⟩) := by
  constructor
  · intro hstart hvalid hname
    simp [listen_for_button_press, hstart, hvalid, hname]
  · intro hfreed
    simp [listen_for_button_press, hfreed]

/-- Witness for `menu_press_dispatch`: node 1 is the live Start button;
node 2's press with an invalidated node is dropped. -/
theorem menu_press_dispatch_witness :
    listen_for_button_press ⟨some 1, some 2, some 3, true, true⟩
        (fun n => n == 1) (fun _ => true) WindowMode.windowed
        [⟨1, "pressed"⟩] =
      ⟨some GameState.InGame, [LevelId.Level1], WindowMode.windowed, false⟩ ∧
    listen_for_button_press ⟨some 1, some 2, some 3, true, true⟩
        (fun n => n == 1) (fun _ => true) WindowMode.windowed
        [⟨2, "pressed"⟩] =
      ⟨none, [], WindowMode.windowed, false⟩ :=
  ⟨(menu_press_dispatch ⟨some 1, some 2, some 3, true, true⟩ (fun n => n == 1)
      (fun _ => true) WindowMode.windowed ⟨1, "pressed"⟩ rfl rfl).1 rfl rfl rfl,
   (menu_press_dispatch ⟨some 1, some 2, some 3, true, true⟩ (fun n => n == 1)
      (fun _ => true) WindowMode.windowed ⟨2, "pressed"⟩ rfl rfl).2 rfl⟩

/-- C10: the return-to-menu handler mutates only `GemsCollected`,
`HudHandles`, `CurrentLevel`, the next game state and the scene-operation
queue; `PendingLevel` and the in-flight loading handle pass through
untouched, so a swap that was pending when the menu return was processed
still makes the level manager emit a level-loaded event once a node matching
the pending level's expected root path is added. -/
theorem menu_return_preserves_pending (w : World) (L : LevelId)
    (h : w.pending = some L) :
    ((worldReturnToMenu [()] w).1.pending = w.pending ∧
      (worldReturnToMenu [()] w).1.loading = w.loading ∧
      (worldReturnToMenu [()] w).1.gems = 0 ∧
      (worldReturnToMenu [()] w).1.hud = ⟨none, none⟩ ∧
      (worldReturnToMenu [()] w).1.current = none ∧
      (worldReturnToMenu [()] w).1.nextState = some GameState.MainMenu ∧
      (worldReturnToMenu [()] w).2 =
        [SceneOp.changeToFile "res://scenes/levels/main_menu.tscn"]) ∧
    (emit_level_loaded [⟨SceneTreeEventType.NodeAdded, expectedRootPath L⟩]
        ⟨(worldReturnToMenu [()] w).1.current,
         (worldReturnToMenu [()] w).1.loading,
         (worldReturnToMenu [()] w).1.pending⟩).2 = [L] := by
  refine ⟨⟨rfl, rfl, rfl, rfl, rfl, rfl, rfl⟩, ?_⟩
  have hp : (worldReturnToMenu [()] w).1.pending = some L := by
    rw [show (worldReturnToMenu [()] w).1.pending = w.pending from rfl, h]
  simp [emit_level_loaded, hp, sceneReadyConfirmed]

/-- Witness for `menu_return_preserves_pending`: a world with a pending
Level3 swap keeps it through a menu return, and the later node-added
confirmation still emits the loaded event. -/
theorem menu_return_preserves_pending_witness :
    (worldReturnToMenu [()]
        ⟨5, ⟨some (), some ()⟩, some LevelId.Level3, none,
         some LevelId.Level3, none⟩).1.pending = some LevelId.Level3 ∧
    (emit_level_loaded [⟨SceneTreeEventType.NodeAdded, "/root/Level3"⟩]
        ⟨(worldReturnToMenu [()]
            ⟨5, ⟨some (), some ()⟩, some LevelId.Level3, none,
             some LevelId.Level3, none⟩).1.current,
         (worldReturnToMenu [()]
            ⟨5, ⟨some (), some ()⟩, some LevelId.Level3, none,
             some LevelId.Level3, none⟩).1.loading,
         (worldReturnToMenu [()]
            ⟨5, ⟨some (), some ()⟩, some LevelId.Level3, none,
             some LevelId.Level3, none⟩).1.pending⟩).2 = [LevelId.Level3] := by
  have h := menu_return_preserves_pending
    ⟨5, ⟨some (), some ()⟩, some LevelId.Level3, none,
     some LevelId.Level3, none⟩ LevelId.Level3 rfl
  exact ⟨h.1.1, h.2⟩

/-- C2 (counterexample): the claim's "only if" direction fails — in a tick
whose scene-tree feed is empty (no node-added event has been observed at
all), a reset event processed while `CurrentLevel = Some(Level2)` makes the
program emit a level-loaded event carrying Level2, via
`handle_reset_level_events` rather than the level manager's confirmation
system. -/
theorem loaded_event_without_node_added :
    (worldResetTick ⟨5, ⟨some (), some ()⟩, some LevelId.Level2, none,
        none, none⟩ [()] []).2 = [LevelId.Level2] :=
  rfl

/-- C2 (amended): the level manager's confirmation system emits a
level-loaded event carrying `L` in a tick if and only if `PendingLevel` is
`Some(L)` — set when the corresponding scene change was requested — and the
tick's scene-tree feed contains a node-added event whose path matches `L`'s
expected root path; the reset handler additionally re-emits a level-loaded
event for the current level without any node-added observation. -/
theorem level_loaded_confirmation_iff (s : LMState)
    (treeEvents : List SceneTreeEvent) (L : LevelId) :
    (emit_level_loaded treeEvents s).2 = [L] ↔
      s.pending = some L ∧
        sceneReadyConfirmed (expectedRootPath L) treeEvents = true := by
  cases hp : s.pending with
  | none => simp [emit_level_loaded, hp]
  | some L' =>
    by_cases hc : sceneReadyConfirmed (expectedRootPath L') treeEvents = true
    · constructor
      · intro hemit
        have hL : L' = L := by
          simpa [emit_level_loaded, hp, hc] using hemit
        subst hL
        exact ⟨rfl, hc⟩
      · rintro ⟨hL, hconf⟩
        have hL' : L' = L := by injection hL
        subst hL'
        simp [emit_level_loaded, hp, hc]
    · constructor
      · intro hemit
        exact absurd hemit (by simp [emit_level_loaded, hp, hc])
      · rintro ⟨hL, hconf⟩
        have hL' : L' = L := by injection hL
        subst hL'
        exact absurd hconf hc

/-- Within one tick, `queue_free` does not invalidate the node, so an alive
gem emits one event per player collision record. -/
lemma detectGemLoop_alive_length (isPlayer : Nat → Bool) (gemId : Nat)
    (cols : List Nat) :
    ∀ pf : Bool,
      ((detectGemLoop isPlayer ⟨true, pf⟩ gemId cols).2).length =
        (cols.filter isPlayer).length := by
  induction cols with
  | nil => intro pf; rfl
  | cons p rest ih =>
    intro pf
    by_cases hp : isPlayer p = true
    · simp [detectGemLoop, hp, List.filter_cons, ih true]
    · have hp' : isPlayer p = false := by
        cases h : isPlayer p
        · rfl
        · exact absurd h hp
      simp [detectGemLoop, hp', List.filter_cons, ih pf]

/-- A gem whose node is already freed emits no events. -/
lemma detectGemLoop_dead (isPlayer : Nat → Bool) (pf : Bool) (gemId : Nat)
    (cols : List Nat) :
    (detectGemLoop isPlayer ⟨false, pf⟩ gemId cols).2 = [] := by
  induction cols with
  | nil => rfl
  | cons p rest ih =>
    by_cases hp : isPlayer p = true
    · simp [detectGemLoop, hp, ih]
    · have hp' : isPlayer p = false := by
        cases h : isPlayer p
        · rfl
        · exact absurd h hp
      simp [detectGemLoop, hp', ih]

/-- The counter never drops below zero across collection and reset
operations. -/
lemma runCounter_nonneg (ops : List CounterOp) :
    ∀ g : ℤ, 0 ≤ g → 0 ≤ runCounter g ops := by
  induction ops with
  | nil => intro g hg; exact hg
  | cons op rest ih =>
    intro g hg
    cases op with
    | collect evs =>
      exact ih _ (by
        simp only [handle_gem_collected_events]
        positivity)
    | reset => exact ih 0 le_rfl

/-- C1 (counterexample): a single gem whose collision feed holds two records
for the same player in one tick emits two collected events and increments
`GemsCollected` by 2 — `queue_free` only marks the node for end-of-frame
deletion, so the second `try_get` still succeeds and the removal does not
de-duplicate within the tick. -/
theorem gem_double_count_counterexample :
    (detect_gem_player_collision (fun n => n == 1)
        [⟨0, ⟨true, false⟩, [1, 1]⟩]).2 = [(1, 0), (1, 0)] ∧
    (handle_gem_collected_events
        (detect_gem_player_collision (fun n => n == 1)
          [⟨0, ⟨true, false⟩, [1, 1]⟩]).2 0).1 = 2 :=
  ⟨rfl, rfl⟩

/-- C1 (amended): the gem detection stage emits exactly one collected event
per player collision record while the gem's node is still valid — so a gem
can be counted once per record, and double-counted within a tick when
several records reference the same gem-player pair, since `queue_free`
defers the node's removal to end of frame; a gem whose node has been freed
(as happens at end of the collecting tick) emits nothing, which is the
actual cross-tick de-dup mechanism; `GemsCollected` increases by exactly
the number of collected events processed and is never negative across any
sequence of collection and reset operations. -/
theorem gem_collection_accounting :
    (∀ (isPlayer : Nat → Bool) (g : GemEntity),
        ((detectGemLoop isPlayer g.node g.id g.collisions).2).length =
          if g.node.alive then (g.collisions.filter isPlayer).length else 0) ∧
    (∀ (events : List (Nat × Nat)) (g : ℤ),
        (handle_gem_collected_events events g).1 = g + events.length) ∧
    (∀ (n : GemNode), (end_of_frame_free n).alive = (n.alive && !n.pendingFree)) ∧
    (∀ (isPlayer : Nat → Bool) (pf : Bool) (gemId : Nat) (cols : List Nat),
        (detectGemLoop isPlayer ⟨false, pf⟩ gemId cols).2 = []) ∧
    (∀ ops : List CounterOp, 0 ≤ runCounter 0 ops) := by
  refine ⟨?_, fun events g => rfl, fun n => rfl, detectGemLoop_dead,
    fun ops => runCounter_nonneg ops 0 le_rfl⟩
  intro isPlayer g
  rcases g with ⟨gemId, ⟨al, pf⟩, cols⟩
  cases al
  · simp [detectGemLoop_dead]
  · simp [detectGemLoop_alive_length]

lemma lmRun_cons (s : LMState) (t : LMTickIn) (ts : List LMTickIn) :
    lmRun s (t :: ts) =
      ((lmRun (lmTick s t).state ts).1,
       (lmTick s t).loaded ++ (lmRun (lmTick s t).state ts).2) :=
  rfl

lemma lmRun_append (l1 : List LMTickIn) :
    ∀ (s : LMState) (l2 : List LMTickIn),
      lmRun s (l1 ++ l2) =
        ((lmRun (lmRun s l1).1 l2).1,
         (lmRun s l1).2 ++ (lmRun (lmRun s l1).1 l2).2) := by
  induction l1 with
  | nil => intro s l2; simp [lmRun]
  | cons t rest ih =>
    intro s l2
    simp [lmRun_cons, List.cons_append, ih, List.append_assoc]

/-- A tick that leaves the state unchanged and emits nothing can be repeated
any number of times without effect. -/
lemma lmRun_stutter (t : LMTickIn) (s : LMState)
    (h1 : (lmTick s t).state = s) (h2 : (lmTick s t).loaded = []) :
    ∀ n, lmRun s (List.replicate n t) = (s, []) := by
  intro n
  induction n with
  | zero => rfl
  | succ k ih => simp [List.replicate_succ, lmRun_cons, h1, h2, ih]

/-- C3: issuing `LoadLevelEvent(Level2)` and then `LoadLevelEvent(Level3)`
before the first asset resolves — for any waiting times, with the superseded
Level2 asset resolving afterwards and stray `/root/Level2` node additions
appearing — yields exactly one level-loaded event over the whole run, and
it carries Level3; the abandoned Level2 load's completion is ignored because
`CurrentLevel` and the loading handle were overwritten. -/
theorem superseded_load_single_loaded_event (a b c d : Nat) :
    (lmRun lmInit (c3Trace a b c d)).2 = [LevelId.Level3] := by
  have hA : lmRun ⟨some LevelId.Level2, some LevelId.Level2, none⟩
      (List.replicate a ⟨[], fun _ => false, []⟩) =
      (⟨some LevelId.Level2, some LevelId.Level2, none⟩, []) :=
    lmRun_stutter _ _ (by rfl) (by rfl) a
  have hB : lmRun ⟨some LevelId.Level3, some LevelId.Level3, none⟩
      (List.replicate b ⟨[], fun id => id == LevelId.Level2, []⟩) =
      (⟨some LevelId.Level3, some LevelId.Level3, none⟩, []) :=
    lmRun_stutter _ _ (by rfl) (by rfl) b
  have hC : lmRun ⟨some LevelId.Level3, none, some LevelId.Level3⟩
      (List.replicate c
        ⟨[], fun _ => false,
         [⟨SceneTreeEventType.NodeAdded, "/root/Level2"⟩]⟩) =
      (⟨some LevelId.Level3, none, some LevelId.Level3⟩, []) :=
    lmRun_stutter _ _ (by rfl) (by rfl) c
  have hD : lmRun ⟨some LevelId.Level3, none, none⟩
      (List.replicate d
        ⟨[], fun _ => false,
         [⟨SceneTreeEventType.NodeAdded, "/root/Level3"⟩]⟩) =
      (⟨some LevelId.Level3, none, none⟩, []) :=
    lmRun_stutter _ _ (by rfl) (by rfl) d
  have f1 : lmTick lmInit ⟨[LevelId.Level2], fun _ => false, []⟩ =
      ⟨⟨some LevelId.Level2, some LevelId.Level2, none⟩, [], []⟩ := rfl
  have f3 : lmTick ⟨some LevelId.Level2, some LevelId.Level2, none⟩
      ⟨[LevelId.Level3], fun _ => false, []⟩ =
      ⟨⟨some LevelId.Level3, some LevelId.Level3, none⟩, [], []⟩ := rfl
  have f5 : lmTick ⟨some LevelId.Level3, some LevelId.Level3, none⟩
      ⟨[], fun id => id == LevelId.Level3, []⟩ =
      ⟨⟨some LevelId.Level3, none, some LevelId.Level3⟩,
       [SceneOp.changeToPacked LevelId.Level3], []⟩ := rfl
  have f7 : lmTick ⟨some LevelId.Level3, none, some LevelId.Level3⟩
      ⟨[], fun _ => false,
       [⟨SceneTreeEventType.NodeAdded, "/root/Level3"⟩]⟩ =
      ⟨⟨some LevelId.Level3, none, none⟩, [], [LevelId.Level3]⟩ := rfl
  simp only [c3Trace, lmRun_cons, lmRun_append, f1, f3, f5, f7, hA, hB, hC,
    hD, List.nil_append, List.append_nil]

lemma setup_hud_snd (gemsCollected : ℤ) (loaded : List LevelId) :
    ∀ s : HudState,
      (setup_hud_on_level_loaded loaded gemsCollected s).2 =
        List.replicate loaded.length gemsCollected := by
  induction loaded with
  | nil => intro s; rfl
  | cons id rest ih =>
    intro s
    simp [setup_hud_on_level_loaded, ih, List.replicate_succ]

lemma setup_hud_gemsText (gemsCollected : ℤ) (loaded : List LevelId) :
    ∀ s : HudState,
      ((setup_hud_on_level_loaded loaded gemsCollected s).1).gemsText =
        s.gemsText := by
  induction loaded with
  | nil => intro s; rfl
  | cons id rest ih =>
    intro s
    simp [setup_hud_on_level_loaded, ih]

lemma setup_hud_gems_label_some (gemsCollected : ℤ) (loaded : List LevelId) :
    ∀ s : HudState, s.handles.gems_label = some () →
      ((setup_hud_on_level_loaded loaded gemsCollected s).1).handles.gems_label =
        some () := by
  induction loaded with
  | nil => intro s h; exact h
  | cons id rest ih =>
    intro s h
    exact ih _ rfl

lemma setup_hud_gems_label (gemsCollected : ℤ) (loaded : List LevelId)
    (s : HudState) :
    ((setup_hud_on_level_loaded loaded gemsCollected s).1).handles.gems_label =
      if loaded.isEmpty then s.handles.gems_label else some () := by
  cases loaded with
  | nil => rfl
  | cons id rest =>
    simp only [List.isEmpty_cons, if_neg (by simp : ¬(false = true))]
    exact setup_hud_gems_label_some gemsCollected rest _ rfl

lemma handle_hud_update_events_handles (updates : List ℤ) :
    ∀ s : HudState, (handle_hud_update_events updates s).handles = s.handles := by
  induction updates with
  | nil => intro s; rfl
  | cons u rest ih =>
    intro s
    rw [show handle_hud_update_events (u :: rest) s =
      handle_hud_update_events rest
        (match s.handles.gems_label with
         | some _ => { s with gemsText := "Gems: " ++ toString u }
         | none => s) from rfl]
    cases h : s.handles.gems_label <;> simp [h, ih]

lemma handle_hud_update_events_gemsText (updates : List ℤ) :
    ∀ s : HudState, s.handles.gems_label = some () →
      (handle_hud_update_events updates s).gemsText =
        match lastGemsChanged updates with
        | some n => "Gems: " ++ toString n
        | none => s.gemsText := by
  induction updates with
  | nil => intro s _; rfl
  | cons u rest ih =>
    intro s h
    rw [show handle_hud_update_events (u :: rest) s =
      handle_hud_update_events rest
        (match s.handles.gems_label with
         | some _ => { s with gemsText := "Gems: " ++ toString u }
         | none => s) from rfl]
    rw [h]
    have ih' := ih { s with gemsText := "Gems: " ++ toString u } (by simpa using h)
    rw [ih']
    cases hr : lastGemsChanged rest <;> simp [lastGemsChanged, hr]

lemma handle_hud_update_events_skip (updates : List ℤ) :
    ∀ s : HudState, s.handles.gems_label = none →
      (handle_hud_update_events updates s).gemsText = s.gemsText := by
  induction updates with
  | nil => intro s _; rfl
  | cons u rest ih =>
    intro s h
    rw [show handle_hud_update_events (u :: rest) s =
      handle_hud_update_events rest
        (match s.handles.gems_label with
         | some _ => { s with gemsText := "Gems: " ++ toString u }
         | none => s) from rfl]
    rw [h]
    exact ih s h

lemma lastGemsChanged_of_ne_nil (l : List ℤ) (h : l ≠ []) :
    ∃ m, lastGemsChanged l = some m := by
  cases l with
  | nil => exact absurd rfl h
  | cons n rest => exact ⟨_, rfl⟩

lemma hudSchedTick_gems_label (w : HudWorld) (t : HudSchedTick)
    (h1 : w.hud.handles.gems_label = some ()) :
    (hudSchedTick w t).hud.handles.gems_label = some () := by
  show ((setup_hud_on_level_loaded t.loaded t.gemsCollected
      w.hud).1).handles.gems_label = some ()
  rw [setup_hud_gems_label]
  cases t.loaded <;> simp [h1]

lemma hudSchedTick_gemsText (w : HudWorld) (t : HudSchedTick) (v : ℤ)
    (h1 : w.hud.handles.gems_label = some ())
    (h2 : w.hud.gemsText = "Gems: " ++ toString v) :
    (hudSchedTick w t).hud.gemsText =
      "Gems: " ++ toString ((lastGemsChanged (hudDelivered w.pending t)).getD v) := by
  have hsl : ((setup_hud_on_level_loaded t.loaded t.gemsCollected
      w.hud).1).handles.gems_label = some () := by
    rw [setup_hud_gems_label]
    cases t.loaded <;> simp [h1]
  have hvl : (if t.setupBeforeHandler then
        (setup_hud_on_level_loaded t.loaded t.gemsCollected w.hud).1
      else w.hud).handles.gems_label = some () := by
    cases hb : t.setupBeforeHandler <;> simp [hb, h1, hsl]
  have hvt : (if t.setupBeforeHandler then
        (setup_hud_on_level_loaded t.loaded t.gemsCollected w.hud).1
      else w.hud).gemsText = "Gems: " ++ toString v := by
    cases hb : t.setupBeforeHandler <;> simp [hb, h2, setup_hud_gemsText]
  show (handle_hud_update_events (hudDelivered w.pending t)
      (if t.setupBeforeHandler then
        (setup_hud_on_level_loaded t.loaded t.gemsCollected w.hud).1
      else w.hud)).gemsText = _
  rw [handle_hud_update_events_gemsText _ _ hvl]
  cases hlast : lastGemsChanged (hudDelivered w.pending t) <;> simp [hlast, hvt]

lemma hudSchedRun_inv (ts : List HudSchedTick) :
    ∀ (w : HudWorld) (v : ℤ),
      w.hud.handles.gems_label = some () →
      w.hud.gemsText = "Gems: " ++ toString v →
      (hudSchedRun w ts).hud.handles.gems_label = some () ∧
        (hudSchedRun w ts).hud.gemsText =
          "Gems: " ++ toString (latestDelivered v w.pending ts) := by
  induction ts with
  | nil => intro w v h1 h2; exact ⟨h1, h2⟩
  | cons t rest ih =>
    intro w v h1 h2
    have h1' := hudSchedTick_gems_label w t h1
    have h2' := hudSchedTick_gemsText w t v h1 h2
    have hstep := ih (hudSchedTick w t)
      ((lastGemsChanged (hudDelivered w.pending t)).getD v) h1' h2'
    rw [show (hudSchedTick w t).pending = hudCarry t from rfl] at hstep
    simpa [hudSchedRun, latestDelivered] using hstep

lemma hudSchedTick_after_loaded (w : HudWorld) (t : HudSchedTick)
    (hne : t.loaded ≠ []) (hs : t.setupBeforeHandler = true) :
    (hudSchedTick w t).hud.handles.gems_label = some () ∧
      (hudSchedTick w t).hud.gemsText =
        "Gems: " ++ toString ((lastGemsChanged (hudDelivered w.pending t)).getD 0) := by
  have hsl : ((setup_hud_on_level_loaded t.loaded t.gemsCollected
      w.hud).1).handles.gems_label = some () := by
    rw [setup_hud_gems_label]
    cases hlo : t.loaded with
    | nil => exact absurd hlo hne
    | cons id rest => simp
  have hnil : hudDelivered w.pending t ≠ [] := by
    simp only [hudDelivered, hs, if_true]
    cases hlo : t.loaded with
    | nil => exact absurd hlo hne
    | cons id rest => simp [List.replicate_succ, List.append_eq_nil]
  obtain ⟨m, hm⟩ := lastGemsChanged_of_ne_nil _ hnil
  constructor
  · show ((setup_hud_on_level_loaded t.loaded t.gemsCollected
        w.hud).1).handles.gems_label = some ()
    exact hsl
  · show (handle_hud_update_events (hudDelivered w.pending t)
        (if t.setupBeforeHandler then
          (setup_hud_on_level_loaded t.loaded t.gemsCollected w.hud).1
        else w.hud)).gemsText = _
    rw [handle_hud_update_events_gemsText _ _ (by simp [hs, hsl]), hm]
    simp [hm]

lemma hudSchedTick_catch_up (w : HudWorld) (t : HudSchedTick)
    (h1 : w.hud.handles.gems_label = some ())
    (hq : hudEmitted t = []) (hp : w.pending ≠ []) :
    (hudSchedTick w t).hud.gemsText =
      "Gems: " ++ toString ((lastGemsChanged w.pending).getD 0) := by
  simp only [hudEmitted] at hq
  obtain ⟨h12, hgen⟩ := List.append_eq_nil.mp hq
  obtain ⟨hext, hrep⟩ := List.append_eq_nil.mp h12
  have hloaded : t.loaded = [] := by
    cases hlo : t.loaded with
    | nil => rfl
    | cons id rest =>
      rw [hlo] at hrep
      simp [List.replicate_succ] at hrep
  have hdel : hudDelivered w.pending t = w.pending := by
    simp [hudDelivered, hext, hrep, hgen]
  have hview : (if t.setupBeforeHandler then
        (setup_hud_on_level_loaded t.loaded t.gemsCollected w.hud).1
      else w.hud) = w.hud := by
    rw [hloaded]
    cases t.setupBeforeHandler <;> rfl
  obtain ⟨m, hm⟩ := lastGemsChanged_of_ne_nil _ hp
  show (handle_hud_update_events (hudDelivered w.pending t)
      (if t.setupBeforeHandler then
        (setup_hud_on_level_loaded t.loaded t.gemsCollected w.hud).1
      else w.hud)).gemsText = _
  rw [hdel, hview, handle_hud_update_events_gemsText _ _ h1, hm]
  simp [hm]

/-- C9 (counterexample): `HudPlugin::build` orders none of the HUD systems
(no chaining, no set configuration), so the engine may legally run
`generate_hud_update_events` after `handle_hud_update_events` in a tick.
Concretely: a Level1 load tick at counter 3 caches the handles and shows
"Gems: 3"; in the next tick a gem event emits `GemsChanged(7)` after the
handler has already run, so at that tick boundary the most recent
gems-changed value is 7 while the label still reads "Gems: 3" — refuting
the every-tick-boundary claim. -/
theorem hud_label_lag_counterexample :
    (hudSchedRun ⟨⟨⟨none, none⟩, "", ""⟩, []⟩
        [⟨[LevelId.Level1], 3, 0, [], true, true, true⟩,
         ⟨[], 7, 1, [], true, true, false⟩]).hud.gemsText = "Gems: 3" ∧
    lastGemsChanged
        (hudEmitted ⟨[LevelId.Level1], 3, 0, [], true, true, true⟩ ++
          hudEmitted ⟨[], 7, 1, [], true, true, false⟩) = some 7 ∧
    "Gems: 3" ≠ "Gems: 7" := by
  refine ⟨rfl, rfl, by decide⟩

/-- C9 (amended): once a level-loaded event has been processed since the
handles were last cleared, the HUD gems label reads `"Gems: {n}"` where `n`
is the most recent gems-changed value the update handler has read; because
the HUD systems are registered without ordering constraints, events written
by a producer the schedule ran after the handler are read only at the
handler's next run, so the label may lag the most recently emitted value by
one tick.  No event is lost: when every producer runs before the handler
the delivered sequence is exactly the carried-over plus emitted events with
nothing carried, and a tick with no new emissions drains the carried events
and catches the label up to the most recent of them; when the gems-label
handle is absent, updates are silently skipped. -/
theorem hud_tracks_delivered_gems :
    (∀ (w : HudWorld) (t : HudSchedTick) (ts : List HudSchedTick),
        t.loaded ≠ [] → t.setupBeforeHandler = true →
        (hudSchedRun (hudSchedTick w t) ts).hud.gemsText =
          "Gems: " ++ toString
            (latestDelivered
              ((lastGemsChanged (hudDelivered w.pending t)).getD 0)
              (hudCarry t) ts)) ∧
    (∀ (w : HudWorld) (t : HudSchedTick),
        w.hud.handles.gems_label = some () →
        hudEmitted t = [] → w.pending ≠ [] →
        (hudSchedTick w t).hud.gemsText =
          "Gems: " ++ toString ((lastGemsChanged w.pending).getD 0)) ∧
    (∀ (pending : List ℤ) (t : HudSchedTick),
        t.externalBeforeHandler = true → t.setupBeforeHandler = true →
        t.genBeforeHandler = true →
        hudDelivered pending t = pending ++ hudEmitted t ∧ hudCarry t = []) ∧
    (∀ (s : HudState) (updates : List ℤ),
        s.handles.gems_label = none →
        (handle_hud_update_events updates s).gemsText = s.gemsText) := by
  refine ⟨?_, hudSchedTick_catch_up, ?_,
    fun s updates h => handle_hud_update_events_skip updates s h⟩
  · intro w t ts hne hs
    obtain ⟨h1, h2⟩ := hudSchedTick_after_loaded w t hne hs
    have hrun := (hudSchedRun_inv ts (hudSchedTick w t)
      ((lastGemsChanged (hudDelivered w.pending t)).getD 0) h1 h2).2
    rw [show (hudSchedTick w t).pending = hudCarry t from rfl] at hrun
    exact hrun
  · intro pending t h1 h2 h3
    constructor
    · simp [hudDelivered, hudEmitted, h1, h2, h3, List.append_assoc]
    · simp [hudCarry, h1, h2, h3]

/-- Witness for `hud_tracks_delivered_gems`: all four parts at concrete
inputs — a producers-first run ending at "Gems: 7"; a quiet tick draining a
buffered `GemsChanged(7)`; the no-loss delivery shape; and the uncached-
handle skip. -/
theorem hud_tracks_delivered_gems_witness :
    (hudSchedRun (hudSchedTick ⟨⟨⟨none, none⟩, "", ""⟩, []⟩
          ⟨[LevelId.Level1], 3, 0, [], true, true, true⟩)
        [⟨[], 7, 1, [], true, true, true⟩]).hud.gemsText = "Gems: 7" ∧
    (hudSchedTick ⟨⟨⟨some (), some ()⟩, "Level 1", "Gems: 3"⟩, [7]⟩
        ⟨[], 0, 0, [], false, false, false⟩).hud.gemsText = "Gems: 7" ∧
    (hudDelivered [9] ⟨[LevelId.Level1], 3, 0, [], true, true, true⟩ =
        [9] ++ hudEmitted ⟨[LevelId.Level1], 3, 0, [], true, true, true⟩ ∧
      hudCarry ⟨[LevelId.Level1], 3, 0, [], true, true, true⟩ = []) ∧
    (handle_hud_update_events [5] ⟨⟨none, none⟩, "", "stale"⟩).gemsText =
      "stale" := by
  refine ⟨?_, ?_, ?_, ?_⟩
  · have h := hud_tracks_delivered_gems.1 ⟨⟨⟨none, none⟩, "", ""⟩, []⟩
      ⟨[LevelId.Level1], 3, 0, [], true, true, true⟩
      [⟨[], 7, 1, [], true, true, true⟩] (by simp) rfl
    rw [h]
    rfl
  · exact hud_tracks_delivered_gems.2.1
      ⟨⟨⟨some (), some ()⟩, "Level 1", "Gems: 3"⟩, [7]⟩
      ⟨[], 0, 0, [], false, false, false⟩ rfl rfl (by simp)
  · exact hud_tracks_delivered_gems.2.2.1 [9]
      ⟨[LevelId.Level1], 3, 0, [], true, true, true⟩ rfl rfl rfl
  · exact hud_tracks_delivered_gems.2.2.2 ⟨⟨none, none⟩, "", "stale"⟩ [5] rfl

end Platformer
